import Mathlib

/-!
Verification of the affiliation-classification and record-extraction logic of
the pubmed-query-tool repository (src/get_papers_list/papers.py and main.py),
as a shallow embedding in Lean 4.

The network boundary (the HTTP client and the XML parser, which are external
libraries, not code of this repository) is modelled by explicit function
parameters; everything else is translated directly from the Python source.
-/

namespace PubmedQueryTool

/-- Keyword list `COMPANY_KEYWORDS` from papers.py (lines 8-11), verbatim. -/
def COMPANY_KEYWORDS : List String :=
  ["inc", "ltd", "llc", "corp", "corporation", "pharmaceuticals",
   "therapeutics", "diagnostics", "biotech", "ventures", "gmbh", "pharma"]

/-- Keyword list `ACADEMIC_KEYWORDS` from papers.py (lines 12-15), verbatim. -/
def ACADEMIC_KEYWORDS : List String :=
  ["university", "college", "school", "hospital", "institute",
   "center", "foundation", "research", "academy", "medical center", "univerzita"]

/-- The character list of `affiliation.lower()`: Python lower-cases the
affiliation before the substring tests (papers.py line 21). -/
def lowerData (s : String) : List Char := s.data.map Char.toLower

/-- Python's `keyword in lower_affiliation`: case-insensitive substring
containment of keyword `k` in string `s` (papers.py lines 24 and 28). -/
def containsKw (s : String) (k : String) : Bool :=
  decide (k.data <:+: lowerData s)

/-- `is_non_academic` from papers.py (lines 17-33): empty text is academic;
a company keyword anywhere makes it non-academic; otherwise an academic
keyword makes it academic; otherwise non-academic by default. -/
def is_non_academic (affiliation : String) : Bool :=
  if affiliation = "" then false
  else if COMPANY_KEYWORDS.any (containsKw affiliation) then true
  else if ACADEMIC_KEYWORDS.any (containsKw affiliation) then false
  else true

/-- An `<Author>` element as accessed by papers.py lines 125-139: the text of
its first `AffiliationInfo/Affiliation` descendant (`none` when the node is
absent or has no text), and the texts of its `LastName` and `Initials` nodes. -/
structure Author where
  affiliation : Option String
  lastName : Option String
  initials : Option String
deriving DecidableEq

/-- Display name of a non-academic author (papers.py lines 132-136):
"{initials} {lastName}" when both nodes exist, the last name alone when only
it exists, "N/A" otherwise. -/
def authorName (a : Author) : String :=
  match a.lastName, a.initials with
  | some ln, some ini => ini ++ " " ++ ln
  | some ln, none => ln
  | none, _ => "N/A"

/-- A `<PubDate>` element (papers.py lines 150-152): `findtext` results for
the Year, Month and Day children, `none` when the child is absent. -/
structure PubDate where
  year : Option String
  month : Option String
  day : Option String
deriving DecidableEq

/-- A `<PubmedArticle>` element as accessed by papers.py: its author list,
and the texts of its `PMID`, `ArticleTitle` and `PubDate` descendants.
`pubDate = none` means `article.find('.//PubDate')` returns `None`, in which
case line 150 raises `AttributeError`, caught by the per-article handler. -/
structure Article where
  authors : List Author
  pmid : Option String
  title : Option String
  pubDate : Option PubDate
deriving DecidableEq

/-- Insertion into the Python set `company_affiliations` (papers.py line 139),
modelled as a duplicate-free list in insertion order. -/
def insertAff (l : List String) (t : String) : List String :=
  if t ∈ l then l else l ++ [t]

/-- One iteration of the author loop of papers.py lines 125-139, acting on the
accumulator (non_academic_authors, company_affiliations): an author whose
affiliation node is absent or has falsy (empty) text is skipped; otherwise, if
`is_non_academic` holds, the display name is appended and the affiliation text
added to the set. -/
def collectStep (acc : List String × List String) (a : Author) :
    List String × List String :=
  match a.affiliation with
  | none => acc
  | some t =>
    if t = "" then acc
    else if is_non_academic t then (acc.1 ++ [authorName a], insertAff acc.2 t)
    else acc

/-- The whole author loop of papers.py lines 121-139, starting from the empty
list and empty set. -/
def collectNonAcademic (authors : List Author) : List String × List String :=
  authors.foldl collectStep ([], [])

/-- `pub_date` formatting, papers.py lines 150-153: each sub-field defaults to
"N/A" independently; the composed string is emitted only when the year field
is not "N/A", else the whole date is "N/A". -/
def formatPubDate (pd : PubDate) : String :=
  let year := pd.year.getD "N/A"
  let month := pd.month.getD "N/A"
  let day := pd.day.getD "N/A"
  if year ≠ "N/A" then year ++ "-" ++ month ++ "-" ++ day else "N/A"

/-- The per-affiliation test of papers.py line 159: contains the character
"@" and has length (character count) greater than 5. -/
def emailLike (aff : String) : Bool :=
  aff.data.contains '@' && decide (aff.length > 5)

/-- Corresponding-email heuristic, papers.py lines 157-162: the first entry of
the company-affiliation set that looks email-like, verbatim, else "N/A". -/
def findEmail (affils : List String) : String :=
  match affils.find? emailLike with
  | some aff => aff
  | none => "N/A"

/-- The row dictionary built at papers.py lines 164-171. Multi-valued fields
are kept structured here; the ", ".join happens in `rowDict` below. -/
structure Row where
  pmid : String
  title : String
  pubDate : String
  nonAcademicAuthors : List String
  companyAffiliations : List String
  corrEmail : String
deriving DecidableEq

/-- Outcome of processing one `<PubmedArticle>` section: `error` when the
per-article `except` handler fires (a warning is printed and the article
skipped), `filtered` when the article has no non-academic author, `emitted`
when a row is appended. -/
inductive ArticleOutcome where
  | error
  | filtered
  | emitted (r : Row)
deriving DecidableEq

/-- The body of the per-article loop, papers.py lines 120-179. The only
fallible access reachable in this data model is `pub_date_node.findtext` when
`find('.//PubDate')` returned `None` (line 150); the resulting exception is
caught at line 172 and the article skipped with a warning. -/
def processArticle (art : Article) : ArticleOutcome :=
  let na := collectNonAcademic art.authors
  if na.1 = [] then .filtered
  else
    match art.pubDate with
    | none => .error
    | some pd =>
      .emitted
        { pmid := art.pmid.getD "N/A"
          title := art.title.getD "No Title"
          pubDate := formatPubDate pd
          nonAcademicAuthors := na.1
          companyAffiliations := na.2
          corrEmail := findEmail na.2 }

/-- `filtered_papers` accumulation over the article loop (papers.py
lines 117-181): the rows of the articles that were emitted, in order. -/
def extractRows (arts : List Article) : List Row :=
  arts.filterMap (fun a =>
    match processArticle a with
    | .emitted r => some r
    | _ => none)

/-- Whether an article outcome is the per-record parse error (warning). -/
def isParseError (o : ArticleOutcome) : Bool :=
  match o with
  | .error => true
  | _ => false

/-- Number of per-record warnings printed by the loop of papers.py. -/
def warningCount (arts : List Article) : Nat :=
  (arts.filter (fun a => isParseError (processArticle a))).length

/-- `parse_and_filter_papers` from papers.py (lines 105-181). The external
XML parser (`ET.fromstring`) is a parameter: `parse doc = none` models
`ET.ParseError` (line 113, whole batch dropped), `some arts` models a parsed
document with its list of `<PubmedArticle>` sections. Empty input returns
`[]` before the parser is consulted (lines 107-109). -/
def parse_and_filter_papers (xml_data : String)
    (parse : String → Option (List Article)) : List Row :=
  if xml_data = "" then []
  else
    match parse xml_data with
    | none => []
    | some arts => extractRows arts

/-- `fetch_paper_details` from papers.py (lines 80-103). The HTTP layer is a
parameter `net` taking the comma-joined id list; `net u = none` models a
request failure (caught, empty string returned). The second component counts
network requests issued. -/
def fetch_paper_details (pmids : List String)
    (net : String → Option String) : String × Nat :=
  if pmids.isEmpty then ("", 0)
  else
    match net (String.intercalate "," pmids) with
    | some body => (body, 1)
    | none => ("", 1)

/-- `required_columns` from main.py (lines 66-70), verbatim. -/
def required_columns : List String :=
  ["PubmedID", "Title", "Publication Date",
   "Non-academic Author(s)", "Company Affiliation(s)",
   "Corresponding Author Email"]

/-- The dictionary appended at papers.py lines 164-171, with the ", ".join of
the multi-valued fields applied. -/
def rowDict (r : Row) : List (String × String) :=
  [("PubmedID", r.pmid),
   ("Title", r.title),
   ("Publication Date", r.pubDate),
   ("Non-academic Author(s)", String.intercalate ", " r.nonAcademicAuthors),
   ("Company Affiliation(s)", String.intercalate ", " r.companyAffiliations),
   ("Corresponding Author Email", r.corrEmail)]

/-- The cells of one report line after main.py line 71 reorders the columns
to `required_columns`: each column name is looked up in the row dictionary. -/
def reportCells (r : Row) : List (Option String) :=
  required_columns.map (fun c => (rowDict r).lookup c)

/-! ### Helper lemmas -/

lemma company_keywords_data_ne_nil : ∀ k ∈ COMPANY_KEYWORDS, k.data ≠ [] := by
  decide

lemma containsKw_empty_false (k : String) (hk : k.data ≠ []) :
    containsKw "" k = false := by
  simp only [containsKw, lowerData, decide_eq_false_iff_not]
  intro h
  exact hk (List.eq_nil_of_infix_nil (by simpa using h))

lemma mem_insertAff (l : List String) (u t : String) :
    t ∈ insertAff l u ↔ t ∈ l ∨ t = u := by
  unfold insertAff
  by_cases h : u ∈ l
  · rw [if_pos h]
    constructor
    · exact Or.inl
    · rintro (ht | rfl)
      · exact ht
      · exact h
  · rw [if_neg h]
    simp

lemma insertAff_length_le (l : List String) (u : String) :
    (insertAff l u).length ≤ l.length + 1 := by
  unfold insertAff
  split
  · exact Nat.le_succ _
  · simp

lemma collectStep_cases (acc : List String × List String) (a : Author) :
    collectStep acc a = acc ∨
    ∃ t, a.affiliation = some t ∧ is_non_academic t = true ∧
      collectStep acc a = (acc.1 ++ [authorName a], insertAff acc.2 t) := by
  cases haff : a.affiliation with
  | none => exact Or.inl (by simp [collectStep, haff])
  | some t =>
    by_cases ht : t = ""
    · exact Or.inl (by simp [collectStep, haff, ht])
    · by_cases hna : is_non_academic t
      · exact Or.inr ⟨t, rfl, hna, by simp [collectStep, haff, ht, hna]⟩
      · exact Or.inl (by simp [collectStep, haff, ht, hna])

lemma foldl_collectStep_mem (authors : List Author) :
    ∀ (acc : List String × List String) (t : String),
      t ∈ (authors.foldl collectStep acc).2 →
      t ∈ acc.2 ∨
        (is_non_academic t = true ∧ ∃ au, au ∈ authors ∧ au.affiliation = some t) := by
  induction authors with
  | nil => intro acc t ht; exact Or.inl ht
  | cons a as ih =>
    intro acc t ht
    simp only [List.foldl_cons] at ht
    rcases ih (collectStep acc a) t ht with hin | ⟨hna, au, hmem, haff⟩
    · rcases collectStep_cases acc a with he | ⟨u, huaff, huna, he⟩
      · rw [he] at hin; exact Or.inl hin
      · rw [he] at hin
        rcases (mem_insertAff acc.2 u t).mp hin with hin2 | rfl
        · exact Or.inl hin2
        · exact Or.inr ⟨huna, a, List.mem_cons_self a as, huaff⟩
    · exact Or.inr ⟨hna, au, List.mem_cons_of_mem a hmem, haff⟩

lemma foldl_collectStep_length (authors : List Author) :
    ∀ acc : List String × List String, acc.2.length ≤ acc.1.length →
      (authors.foldl collectStep acc).2.length ≤
        (authors.foldl collectStep acc).1.length := by
  induction authors with
  | nil => intro acc h; exact h
  | cons a as ih =>
    intro acc h
    simp only [List.foldl_cons]
    apply ih
    rcases collectStep_cases acc a with he | ⟨u, _, _, he⟩
    · rw [he]; exact h
    · rw [he]
      calc (insertAff acc.2 u).length ≤ acc.2.length + 1 :=
            insertAff_length_le acc.2 u
        _ ≤ acc.1.length + 1 := Nat.succ_le_succ h
        _ = (acc.1 ++ [authorName a]).length := by simp

lemma mem_extractRows (arts : List Article) (r : Row) :
    r ∈ extractRows arts ↔
      ∃ art, art ∈ arts ∧ processArticle art = .emitted r := by
  unfold extractRows
  rw [List.mem_filterMap]
  constructor
  · rintro ⟨art, hmem, hf⟩
    refine ⟨art, hmem, ?_⟩
    cases hpa : processArticle art with
    | error => rw [hpa] at hf; cases hf
    | filtered => rw [hpa] at hf; cases hf
    | emitted r' => rw [hpa] at hf; injection hf with h; rw [h]
  · rintro ⟨art, hmem, hpa⟩
    exact ⟨art, hmem, by rw [hpa]⟩

lemma processArticle_emitted_spec (art : Article) (r : Row)
    (h : processArticle art = .emitted r) :
    ∃ pd, art.pubDate = some pd ∧
      (collectNonAcademic art.authors).1 ≠ [] ∧
      r = { pmid := art.pmid.getD "N/A"
            title := art.title.getD "No Title"
            pubDate := formatPubDate pd
            nonAcademicAuthors := (collectNonAcademic art.authors).1
            companyAffiliations := (collectNonAcademic art.authors).2
            corrEmail := findEmail (collectNonAcademic art.authors).2 } := by
  unfold processArticle at h
  by_cases h1 : (collectNonAcademic art.authors).1 = []
  · rw [if_pos h1] at h; cases h
  · rw [if_neg h1] at h
    cases hpd : art.pubDate with
    | none => rw [hpd] at h; cases h
    | some pd =>
      rw [hpd] at h
      injection h with h2
      exact ⟨pd, rfl, h1, h2.symm⟩

lemma find?_decomp {p : String → Bool} :
    ∀ (l : List String) (b : String), l.find? p = some b →
      p b = true ∧ ∃ pre post, l = pre ++ b :: post ∧ ∀ a ∈ pre, p a = false := by
  intro l
  induction l with
  | nil => intro b h; cases h
  | cons x xs ih =>
    intro b h
    rw [List.find?_cons] at h
    split at h
    · injection h with h2
      subst h2
      exact ⟨by assumption, [], xs, rfl, by simp⟩
    · rcases ih b h with ⟨hpb, pre, post, heq, hpre⟩
      refine ⟨hpb, x :: pre, post, by rw [heq]; rfl, ?_⟩
      intro a ha
      rcases List.mem_cons.mp ha with rfl | ha2
      · simpa using by assumption
      · exact hpre a ha2

/-! ### Claim theorems -/

/-- C1: any affiliation string containing (case-insensitively, as a
substring) a term of COMPANY_KEYWORDS classifies NON_ACADEMIC
(`is_non_academic` returns true), regardless of any academic keywords it may
also contain: the company check comes first and wins. -/
theorem company_keyword_precedence (s : String)
    (h : COMPANY_KEYWORDS.any (containsKw s) = true) :
    is_non_academic s = true := by
  have hne : s ≠ "" := by
    rintro rfl
    rcases List.any_eq_true.mp h with ⟨k, hk, hck⟩
    rw [containsKw_empty_false k (company_keywords_data_ne_nil k hk)] at hck
    cases hck
  unfold is_non_academic
  rw [if_neg hne, if_pos h]

/-- Witness for C1: "Pharma Research Institute" contains the company keyword
"pharma" and the academic keywords "research" and "institute", and
classifies NON_ACADEMIC. -/
theorem company_keyword_precedence_witness :
    COMPANY_KEYWORDS.any (containsKw "Pharma Research Institute") = true ∧
    ACADEMIC_KEYWORDS.any (containsKw "Pharma Research Institute") = true ∧
    is_non_academic "Pharma Research Institute" = true :=
  ⟨by decide, by decide,
   company_keyword_precedence "Pharma Research Institute" (by decide)⟩

/-- C2: any non-empty affiliation string matching no company keyword and no
academic keyword classifies NON_ACADEMIC (default-to-commercial fallback). -/
theorem fallback_non_academic (s : String) (h0 : s ≠ "")
    (hc : COMPANY_KEYWORDS.any (containsKw s) = false)
    (ha : ACADEMIC_KEYWORDS.any (containsKw s) = false) :
    is_non_academic s = true := by
  unfold is_non_academic
  rw [if_neg h0, hc, if_neg (by simp), ha, if_neg (by simp)]

/-- Witness for C2: "Starlight Genomics Solutions" matches neither keyword
set and classifies NON_ACADEMIC. -/
theorem fallback_non_academic_witness :
    COMPANY_KEYWORDS.any (containsKw "Starlight Genomics Solutions") = false ∧
    ACADEMIC_KEYWORDS.any (containsKw "Starlight Genomics Solutions") = false ∧
    is_non_academic "Starlight Genomics Solutions" = true :=
  ⟨by decide, by decide,
   fallback_non_academic "Starlight Genomics Solutions" (by decide)
     (by decide) (by decide)⟩

/-- C3: the classifier returns false on empty text, and an author whose
affiliation node is absent or has empty text leaves the accumulated
non-academic-author list and affiliation set unchanged. -/
theorem empty_affiliation_academic :
    is_non_academic "" = false ∧
    ∀ (acc : List String × List String) (a : Author),
      (a.affiliation = none ∨ a.affiliation = some "") →
      collectStep acc a = acc := by
  refine ⟨by decide, ?_⟩
  rintro acc a (h | h) <;> simp [collectStep, h]

/-- Witness for C3: a concrete author with an absent affiliation node does
not change a concrete accumulator. -/
theorem empty_affiliation_academic_witness :
    is_non_academic "" = false ∧
    collectStep (["A Smith"], ["Acme Inc"])
      { affiliation := none, lastName := some "Doe", initials := some "J" } =
      (["A Smith"], ["Acme Inc"]) :=
  ⟨empty_affiliation_academic.1,
   empty_affiliation_academic.2 (["A Smith"], ["Acme Inc"]) _ (Or.inl rfl)⟩

/-- C4: every emitted row comes from an article of the input whose processing
emitted it, and its non-academic-author list is non-empty; a record with no
non-academic author never yields a row. -/
theorem rows_require_non_academic_author (arts : List Article) (r : Row)
    (h : r ∈ extractRows arts) :
    ∃ art, art ∈ arts ∧ processArticle art = .emitted r ∧
      r.nonAcademicAuthors ≠ [] := by
  rcases (mem_extractRows arts r).mp h with ⟨art, hmem, hpa⟩
  rcases processArticle_emitted_spec art r hpa with ⟨pd, _, hne, hr⟩
  refine ⟨art, hmem, hpa, ?_⟩
  rw [hr]
  exact hne

/-- Concrete single-article input for the C4 witness. -/
def c4Arts : List Article :=
  [{ authors := [{ affiliation := some "Beta Labs GmbH",
                   lastName := some "Doe", initials := some "J" }],
     pmid := some "11", title := some "T1",
     pubDate := some { year := some "2021", month := some "5", day := none } }]

/-- The row produced from `c4Arts`. -/
def c4Row : Row :=
  { pmid := "11", title := "T1", pubDate := "2021-5-N/A",
    nonAcademicAuthors := ["J Doe"], companyAffiliations := ["Beta Labs GmbH"],
    corrEmail := "N/A" }

/-- Witness for C4 at a concrete input. -/
theorem rows_require_non_academic_author_witness :
    ∃ art, art ∈ c4Arts ∧ processArticle art = .emitted c4Row ∧
      c4Row.nonAcademicAuthors ≠ [] :=
  rows_require_non_academic_author c4Arts c4Row (by decide)

/-- C5: the publication date is "N/A" whenever the year sub-field defaults to
"N/A", and otherwise is the year, month, day sub-fields (each defaulting to
"N/A" independently) joined by "-"; every emitted row's date field is exactly
this format of the article's PubDate node. -/
theorem publication_date_format (pd : PubDate) :
    (pd.year.getD "N/A" = "N/A" → formatPubDate pd = "N/A") ∧
    (pd.year.getD "N/A" ≠ "N/A" →
      formatPubDate pd =
        pd.year.getD "N/A" ++ "-" ++ pd.month.getD "N/A" ++ "-" ++
          pd.day.getD "N/A") ∧
    ∀ (art : Article) (r : Row) (p : PubDate), art.pubDate = some p →
      processArticle art = .emitted r → r.pubDate = formatPubDate p := by
  refine ⟨?_, ?_, ?_⟩
  · intro h
    simp [formatPubDate, h]
  · intro h
    simp [formatPubDate, h]
  · intro art r p hp hpa
    rcases processArticle_emitted_spec art r hpa with ⟨pd2, hpd2, _, hr⟩
    rw [hp] at hpd2
    injection hpd2 with h2
    rw [h2, hr]

/-- Witness for C5: year "2022" with missing month and day gives
"2022-N/A-N/A"; a missing year gives "N/A"; and a concrete emitted row
carries exactly the formatted date. -/
theorem publication_date_format_witness :
    formatPubDate { year := some "2022", month := none, day := none } =
      "2022-N/A-N/A" ∧
    formatPubDate { year := none, month := some "Jun", day := some "3" } =
      "N/A" ∧
    (Row.mk "N/A" "No Title" "2022-N/A-N/A" ["Roe"] ["Gamma Therapeutics"]
        "N/A").pubDate =
      formatPubDate { year := some "2022", month := none, day := none } := by
  refine ⟨?_, ?_, ?_⟩
  · have h :=
      (publication_date_format
        { year := some "2022", month := none, day := none }).2.1 (by decide)
    rw [h]
    decide
  · exact (publication_date_format
      { year := none, month := some "Jun", day := some "3" }).1 (by decide)
  · exact (publication_date_format
      { year := some "2022", month := none, day := none }).2.2
      { authors := [{ affiliation := some "Gamma Therapeutics",
                      lastName := some "Roe", initials := none }],
        pmid := none, title := none,
        pubDate := some { year := some "2022", month := none, day := none } }
      _ _ rfl (by decide)

/-- C6: one malformed article among well-formed ones is skipped with exactly
one per-record warning, while the rows of all remaining qualifying articles
are still emitted; extraction is a total function, so it never raises. -/
theorem malformed_record_isolation (pre post : List Article) (bad : Article)
    (hbad : processArticle bad = .error)
    (hok : ∀ a ∈ pre ++ post, processArticle a ≠ .error) :
    extractRows (pre ++ bad :: post) = extractRows pre ++ extractRows post ∧
    warningCount (pre ++ bad :: post) = 1 := by
  have hfil : ∀ l : List Article, (∀ a ∈ l, processArticle a ≠ .error) →
      (l.filter fun a => isParseError (processArticle a)) = [] := by
    intro l hl
    rw [List.filter_eq_nil_iff]
    intro a ha
    have hne := hl a ha
    cases hpa : processArticle a with
    | error => exact absurd hpa hne
    | filtered => simp [isParseError]
    | emitted r => simp [isParseError]
  constructor
  · simp only [extractRows, List.filterMap_append, List.filterMap_cons, hbad]
  · have h1 : isParseError (processArticle bad) = true := by rw [hbad]; rfl
    have hpre : (pre.filter fun a => isParseError (processArticle a)) = [] :=
      hfil pre fun a ha => hok a (List.mem_append_left post ha)
    have hpost : (post.filter fun a => isParseError (processArticle a)) = [] :=
      hfil post fun a ha => hok a (List.mem_append_right pre ha)
    simp [warningCount, List.filter_append, List.filter_cons, h1, hpre, hpost]

/-- A well-formed article emitting a row (C6 witness input). -/
def c6Good1 : Article :=
  { authors := [{ affiliation := some "Delta Inc",
                  lastName := some "One", initials := some "A" }],
    pmid := some "1", title := some "Ta",
    pubDate := some { year := some "2020", month := none, day := none } }

/-- A well-formed academic-only article, filtered out (C6 witness input). -/
def c6Good2 : Article :=
  { authors := [{ affiliation := some "Harvard University",
                  lastName := some "Two", initials := some "B" }],
    pmid := some "2", title := some "Tb",
    pubDate := some { year := some "2021", month := none, day := none } }

/-- A well-formed article emitting a row (C6 witness input). -/
def c6Good3 : Article :=
  { authors := [{ affiliation := some "Epsilon Biotech",
                  lastName := some "Three", initials := some "C" }],
    pmid := some "3", title := some "Tc",
    pubDate := some { year := none, month := none, day := none } }

/-- The malformed article: a qualifying author but no PubDate node, so the
per-article handler fires (C6 witness input). -/
def c6Bad : Article :=
  { authors := [{ affiliation := some "Zeta Ventures",
                  lastName := some "Four", initials := some "D" }],
    pmid := some "4", title := some "Td", pubDate := none }

/-- Witness for C6: one unparseable record among three valid ones. -/
theorem malformed_record_isolation_witness :
    extractRows ([c6Good1, c6Good2] ++ c6Bad :: [c6Good3]) =
      extractRows [c6Good1, c6Good2] ++ extractRows [c6Good3] ∧
    warningCount ([c6Good1, c6Good2] ++ c6Bad :: [c6Good3]) = 1 :=
  malformed_record_isolation [c6Good1, c6Good2] [c6Good3] c6Bad
    (by decide) (by decide)

/-- C7: the corresponding-email field is "N/A" when no entry of the
company-affiliation set contains "@" with length above the threshold, and
otherwise is, verbatim, the first entry in scan order that does; every
emitted row's email field is exactly this scan of its affiliation set. -/
theorem corresponding_email_heuristic (affils : List String) :
    ((∀ a ∈ affils, emailLike a = false) → findEmail affils = "N/A") ∧
    ((∃ a ∈ affils, emailLike a = true) →
      emailLike (findEmail affils) = true ∧
      ∃ pre post, affils = pre ++ findEmail affils :: post ∧
        ∀ b ∈ pre, emailLike b = false) ∧
    ∀ (art : Article) (r : Row), processArticle art = .emitted r →
      r.corrEmail = findEmail r.companyAffiliations := by
  refine ⟨?_, ?_, ?_⟩
  · intro h
    have hn : affils.find? emailLike = none :=
      List.find?_eq_none.mpr fun x hx => by rw [h x hx]; simp
    simp [findEmail, hn]
  · rintro ⟨a, ha, hea⟩
    cases hf : affils.find? emailLike with
    | none => exact absurd hea (List.find?_eq_none.mp hf a ha)
    | some b =>
      have hd := find?_decomp affils b hf
      have hfe : findEmail affils = b := by simp [findEmail, hf]
      rw [hfe]
      exact ⟨hd.1, hd.2⟩
  · intro art r hpa
    rcases processArticle_emitted_spec art r hpa with ⟨pd, _, _, hr⟩
    rw [hr]

/-- Witness for C7: a set with no email-like entry yields "N/A"; a set whose
second entry is email-like yields it verbatim; a concrete emitted row carries
the scan result of its own affiliation set. -/
theorem corresponding_email_heuristic_witness :
    findEmail ["Acme Labs"] = "N/A" ∧
    (emailLike (findEmail ["Acme Pharma", "info@acme.com"]) = true ∧
      ∃ pre post, ["Acme Pharma", "info@acme.com"] =
        pre ++ findEmail ["Acme Pharma", "info@acme.com"] :: post ∧
        ∀ b ∈ pre, emailLike b = false) ∧
    (Row.mk "9" "Te" "2018-N/A-N/A" ["E Five"] ["Eta Corp e@f.gh"]
        "Eta Corp e@f.gh").corrEmail =
      findEmail (Row.mk "9" "Te" "2018-N/A-N/A" ["E Five"] ["Eta Corp e@f.gh"]
        "Eta Corp e@f.gh").companyAffiliations :=
  ⟨(corresponding_email_heuristic ["Acme Labs"]).1 (by decide),
   (corresponding_email_heuristic ["Acme Pharma", "info@acme.com"]).2.1
     (by decide),
   (corresponding_email_heuristic []).2.2
     { authors := [{ affiliation := some "Eta Corp e@f.gh",
                     lastName := some "Five", initials := some "E" }],
       pmid := some "9", title := some "Te",
       pubDate := some { year := some "2018", month := none, day := none } }
     _ (by decide)⟩

/-- C8: for an empty identifier list the fetch stage returns the empty
document with zero network requests, whatever the network does; and for the
empty raw document, extraction returns the empty row sequence, whatever the
parser does. -/
theorem empty_input_short_circuit :
    (∀ net : String → Option String, fetch_paper_details [] net = ("", 0)) ∧
    ∀ parse : String → Option (List Article),
      parse_and_filter_papers "" parse = [] :=
  ⟨fun _ => rfl, fun _ => rfl⟩

/-- C9: the report columns are exactly PubmedID (the record identifier),
Title, Publication Date, Non-academic Author(s), Company Affiliation(s),
Corresponding Author Email, in this order, and the cells of every row are
the corresponding row fields with the multi-valued fields comma-space
joined. -/
theorem report_column_order (r : Row) :
    required_columns = ["PubmedID", "Title", "Publication Date",
      "Non-academic Author(s)", "Company Affiliation(s)",
      "Corresponding Author Email"] ∧
    reportCells r = [some r.pmid, some r.title, some r.pubDate,
      some (String.intercalate ", " r.nonAcademicAuthors),
      some (String.intercalate ", " r.companyAffiliations),
      some r.corrEmail] :=
  ⟨rfl, rfl⟩

/-- C10: in every emitted row, each entry of the company-affiliation set is
the verbatim affiliation text of some author of the source article and
satisfies `is_non_academic`, and the set has at most as many entries as the
non-academic-author list. -/
theorem company_affiliation_invariant (arts : List Article) (r : Row)
    (h : r ∈ extractRows arts) :
    ∃ art, art ∈ arts ∧ processArticle art = .emitted r ∧
      (∀ aff ∈ r.companyAffiliations, is_non_academic aff = true ∧
        ∃ au, au ∈ art.authors ∧ au.affiliation = some aff) ∧
      r.companyAffiliations.length ≤ r.nonAcademicAuthors.length := by
  rcases (mem_extractRows arts r).mp h with ⟨art, hmem, hpa⟩
  rcases processArticle_emitted_spec art r hpa with ⟨pd, _, _, hr⟩
  refine ⟨art, hmem, hpa, ?_, ?_⟩
  · intro aff haff
    rw [hr] at haff
    rcases foldl_collectStep_mem art.authors ([], []) aff haff with h0 |
      ⟨hna, au, hmem2, haff2⟩
    · cases h0
    · exact ⟨hna, au, hmem2, haff2⟩
  · rw [hr]
    exact foldl_collectStep_length art.authors ([], []) (Nat.le_refl 0)

/-- Concrete input for the C10 witness: two authors sharing one company
affiliation, so the set is strictly smaller than the author list. -/
def c10Arts : List Article :=
  [{ authors := [{ affiliation := some "Omega Diagnostics",
                   lastName := some "Black", initials := some "P" },
                 { affiliation := some "Omega Diagnostics",
                   lastName := some "White", initials := some "Q" }],
     pmid := some "7", title := some "Tt",
     pubDate := some { year := some "2019", month := none, day := none } }]

/-- The row produced from `c10Arts`. -/
def c10Row : Row :=
  { pmid := "7", title := "Tt", pubDate := "2019-N/A-N/A",
    nonAcademicAuthors := ["P Black", "Q White"],
    companyAffiliations := ["Omega Diagnostics"], corrEmail := "N/A" }

/-- Witness for C10 at a concrete input. -/
theorem company_affiliation_invariant_witness :
    ∃ art, art ∈ c10Arts ∧ processArticle art = .emitted c10Row ∧
      (∀ aff ∈ c10Row.companyAffiliations, is_non_academic aff = true ∧
        ∃ au, au ∈ art.authors ∧ au.affiliation = some aff) ∧
      c10Row.companyAffiliations.length ≤ c10Row.nonAcademicAuthors.length :=
  company_affiliation_invariant c10Arts c10Row (by decide)

end PubmedQueryTool
